import Mathlib

set_option maxRecDepth 8000

/-!
Shallow embedding of the adaptive BDF ODE-solver step-control engine in
`src/jax_reactor/solver/bdf.py` (class `BDF`: `maybe_step`, `step`,
`advance_to_solution_time`, `_solve`, `_get_coefficients`).

Modelling conventions:
* Machine floats become exact rationals (ℚ); the IEEE NaN produced by
  `np.where(newton_converged, error_ratio, np.nan)` is modelled as
  `Option ℚ` with `none` for NaN, and every comparison against NaN is
  false, as in NumPy.
* The state vector is scalar (one ODE); the control flow of the solver is
  dimension-independent, and every claim under verification concerns the
  control flow and scalar step/order bookkeeping.
* The repository module `bdf_util` is not under `src/`; its numeric kernels
  (`interpolate_backward_differences`, `newton_qr`, `newton`, `error_ratio`,
  `update_backward_differences`) are external collaborators per the spec and
  enter the embedding as an opaque environment record `BdfUtilEnv`.
  `bdf_util.next_step_size` is modelled from the spec formula where stated.
* `jax.lax.while_loop` becomes a fuel-indexed iteration `while_loop`.
-/

/-- Comparison of possibly-NaN scalars: `none` models IEEE NaN, and any
comparison involving NaN is false, matching NumPy semantics. -/
def optLt (x y : Option ℚ) : Bool :=
  match x, y with
  | some a, some b => decide (a < b)
  | _, _ => false

/-- Integer clip, as `np.clip (x, lo, hi) = min (max x lo) hi`. -/
def clipZ (x lo hi : ℤ) : ℤ := min (max x lo) hi

/-- Scalar clip, as `np.clip` / `tf.clip_by_value`: `min (max x lo) hi`. -/
def clampQ (x lo hi : ℚ) : ℚ := min (max x lo) hi

/-- Fuel-indexed model of `jax.lax.while_loop`: run `body` while `cond`
holds, for at most `fuel` iterations. -/
def while_loop {σ : Type} (cond : σ → Bool) (body : σ → σ) : ℕ → σ → σ
  | 0, s => s
  | fuel + 1, s => if cond s then while_loop cond body fuel (body s) else s

/-- Diagnostics counters and status code, mirroring `_BDFDiagnostics`. -/
structure _BDFDiagnostics where
  num_jacobian_evaluations : ℤ
  num_matrix_factorizations : ℤ
  num_ode_fn_evaluations : ℤ
  status : ℤ

/-- Per-attempt transient state, mirroring `_BDFIterand`. -/
structure _BDFIterand where
  jacobian_mat : ℚ
  jacobian_is_up_to_date : Bool
  new_step_size : ℚ
  num_steps : ℤ
  num_steps_same_size : ℤ
  should_update_jacobian : Bool
  should_update_step_size : Bool
  time : ℚ
  unitary : ℚ
  upper : ℚ

/-- Warm-start state, mirroring `_BDFSolverInternalState`. -/
structure _BDFSolverInternalState where
  backward_differences : Array ℚ
  order : ℤ
  step_size : ℚ

/-- Solver configuration (the `BDF.__init__` fields), together with the
derived coefficient tables `self.e` and the flattened right-hand side
`self.p.ode_fn_vec` that `maybe_step` consumes. -/
structure BDF where
  rtol : ℚ
  atol : ℚ
  safety_factor : ℚ
  min_step_size_factor : ℚ
  max_step_size_factor : ℚ
  max_num_steps : ℤ
  max_order : ℤ
  max_num_newton_iters : ℤ
  newton_tol_factor : ℚ
  newton_step_size_factor : ℚ
  evaluate_jacobian_lazily : Bool
  newton_coefficients : ℤ → ℚ
  error_coefficients : ℤ → ℚ
  ode_fn_vec : ℚ → ℚ → ℚ

/-- Modelled from the spec: the repository module `bdf_util` is not under
`src/`; per spec section 6 its dense linear-algebra and history kernels are
black-box external collaborators, so they enter the embedding as an opaque
environment. `powNegRecip er n` abstracts the real power `er ** (-1/n)`
appearing in the spec formula for `next_step_size`. The `newton` field
returns `(converged, next_backward_difference, next_state_vec, num_iters)`. -/
structure BdfUtilEnv where
  interpolate_backward_differences : Array ℚ → ℤ → ℚ → Array ℚ
  newton_qr : ℚ → ℚ → ℚ → ℚ × ℚ
  newton : Array ℚ → ℤ → ℚ → (ℚ → ℚ → ℚ) → ℤ → ℚ → ℚ → ℚ → ℚ → ℚ → Bool × ℚ × ℚ × ℤ
  error_ratio : ℚ → ℚ → ℚ → ℚ
  update_backward_differences : Array ℚ → ℚ → ℚ → ℤ → Array ℚ
  powNegRecip : ℚ → ℤ → ℚ

/-- Modelled from the spec: `bdf_util.next_step_size` is not under `src/`;
spec section 4.3 step 9 gives
`newStep = step * clamp(safetyFactor * errorRatio^(-1/(order+1)), minStepSizeFactor, maxStepSizeFactor)`,
with the real power supplied by the environment as `powNegRecip`. -/
def next_step_size (env : BdfUtilEnv) (step_size : ℚ) (order : ℤ)
    (error_ratio safety_factor min_step_size_factor max_step_size_factor : ℚ) : ℚ :=
  step_size *
    clampQ (safety_factor * env.powNegRecip error_ratio (order + 1))
      min_step_size_factor max_step_size_factor

/-- State threaded through the `maybe_step` retry loop inside `step`. -/
structure MaybeStepState where
  accepted : Bool
  diagnostics : _BDFDiagnostics
  iterand : _BDFIterand
  solver_internal_state : _BDFSolverInternalState

/-- Line 149 of bdf.py: the status computed at the top of `maybe_step`,
from the not-yet-incremented attempt counter. -/
def attempt_status (S : BDF) (it : _BDFIterand) : ℤ :=
  if it.num_steps = S.max_num_steps then -1 else 0

/-- Lines 150-154: the backward differences after the conditional
interpolation to the pending step size. -/
def attempt_bd (env : BdfUtilEnv) (it : _BDFIterand) (sis : _BDFSolverInternalState) : Array ℚ :=
  if it.should_update_step_size then
    env.interpolate_backward_differences sis.backward_differences sis.order
      (it.new_step_size / sis.step_size)
  else sis.backward_differences

/-- Line 155: the step size actually used by this attempt. -/
def attempt_step_size (it : _BDFIterand) (sis : _BDFSolverInternalState) : ℚ :=
  if it.should_update_step_size then it.new_step_size else sis.step_size

/-- Lines 168-169: the scaled tolerance of this attempt (scalar state). -/
def attempt_tol (S : BDF) (env : BdfUtilEnv) (it : _BDFIterand)
    (sis : _BDFSolverInternalState) : ℚ :=
  S.atol + S.rtol * |(attempt_bd env it sis).getD 0 0|

/-- Lines 160-165: the QR factorization of the Newton system matrix. -/
def attempt_factorization (S : BDF) (env : BdfUtilEnv) (it : _BDFIterand)
    (sis : _BDFSolverInternalState) : ℚ × ℚ :=
  env.newton_qr it.jacobian_mat (S.newton_coefficients sis.order) (attempt_step_size it sis)

/-- Lines 171-183: the Newton corrector call of this attempt. -/
def attempt_newton (S : BDF) (env : BdfUtilEnv) (it : _BDFIterand)
    (sis : _BDFSolverInternalState) : Bool × ℚ × ℚ × ℤ :=
  env.newton (attempt_bd env it sis) S.max_num_newton_iters
    (S.newton_coefficients sis.order) S.ode_fn_vec sis.order
    (attempt_step_size it sis) it.time
    (S.newton_tol_factor * |attempt_tol S env it sis|)
    (attempt_factorization S env it sis).1 (attempt_factorization S env it sis).2

/-- Lines 199-203: the error ratio, NaN (`none`) when Newton failed. -/
def attempt_error_ratio (S : BDF) (env : BdfUtilEnv) (it : _BDFIterand)
    (sis : _BDFSolverInternalState) : Option ℚ :=
  if (attempt_newton S env it sis).1 then
    some (env.error_ratio (attempt_newton S env it sis).2.1
      (S.error_coefficients sis.order) (attempt_tol S env it sis))
  else none

/-- Lines 239-250 of bdf.py: the `for offset in [-1, +1]` order scan, with
the branchless gate `should_update_order_and_step_size` as a parameter and
the proposed-error-ratio computation abstracted as `propose` (in
`maybe_step` it reads the updated backward-difference row for the proposed
order). -/
def order_scan (gate : Bool) (max_order order : ℤ) (propose : ℤ → ℚ)
    (er0 : Option ℚ) : ℤ × Option ℚ :=
  [(-1 : ℤ), 1].foldl (fun acc offset =>
    let proposed_order := clipZ (order + offset) 1 max_order
    let proposed_error_ratio := propose proposed_order
    let proposed_error_ratio_is_lower := optLt (some proposed_error_ratio) acc.2
    (if gate && proposed_error_ratio_is_lower then proposed_order else acc.1,
     if gate && proposed_error_ratio_is_lower then some proposed_error_ratio
      else acc.2)) (order, er0)
/-- The order/error-ratio co-adaptation exactly as claim C1 words it: a
left-to-right scan over the offsets -1 then +1; each proposed order is
`order + offset` clamped to `[1, maxOrder]`; a proposed order and its
error ratio are adopted only when the proposed error ratio is strictly
lower than the best seen so far (so ties keep the incumbent, and a later
strictly lower +1 result overrides an earlier -1 adoption). -/
def order_scan_spec (max_order order : ℤ) (propose : ℤ → ℚ) (er0 : Option ℚ) : ℤ × Option ℚ :=
  [(-1 : ℤ), 1].foldl (fun best offset =>
    let p := clipZ (order + offset) 1 max_order
    let pe := propose p
    if optLt (some pe) best.2 then (p, some pe) else best) (order, er0)


/-- Lines 136-278 of bdf.py: one step attempt (`maybe_step`), transcribed
statement by statement; `np.where` with a scalar boolean condition becomes
`if then else`, and the `for offset in [-1, +1]` order scan becomes
`order_scan`. -/
def maybe_step (S : BDF) (env : BdfUtilEnv) (st : MaybeStepState) : MaybeStepState :=
  let iterand := st.iterand
  let sis := st.solver_internal_state
  let status := attempt_status S iterand
  let backward_differences := attempt_bd env iterand sis
  let step_size := attempt_step_size iterand sis
  let num_steps_same_size := if iterand.should_update_step_size then 0 else iterand.num_steps_same_size
  let uu := attempt_factorization S env iterand sis
  let num_matrix_factorizations := st.diagnostics.num_matrix_factorizations + 1
  let tol := attempt_tol S env iterand sis
  let nres := attempt_newton S env iterand sis
  let newton_converged := nres.1
  let next_backward_difference := nres.2.1
  let next_state_vec := nres.2.2.1
  let newton_num_iters := nres.2.2.2
  let num_steps := iterand.num_steps + 1
  let num_ode_fn_evaluations := st.diagnostics.num_ode_fn_evaluations + newton_num_iters
  let newton_failed := !newton_converged
  let should_update_step_size := newton_failed && iterand.jacobian_is_up_to_date
  let new_step_size := step_size * (if should_update_step_size then S.newton_step_size_factor else 1)
  let should_update_jacobian := newton_failed && !iterand.jacobian_is_up_to_date
  let error_ratio := attempt_error_ratio S env iterand sis
  let accepted := optLt error_ratio (some 1)
  let converged_and_rejected := newton_converged && !accepted
  let new_step_size :=
    match error_ratio with
    | some e =>
        if converged_and_rejected then
          next_step_size env step_size sis.order e S.safety_factor
            S.min_step_size_factor S.max_step_size_factor
        else new_step_size
    | none => new_step_size
  let should_update_step_size := should_update_step_size || converged_and_rejected
  let time := if accepted then iterand.time + step_size else iterand.time
  let backward_differences :=
    if accepted then
      env.update_backward_differences backward_differences next_backward_difference
        next_state_vec sis.order
    else backward_differences
  let jacobian_is_up_to_date := iterand.jacobian_is_up_to_date && !accepted
  let num_steps_same_size := if accepted then num_steps_same_size + 1 else num_steps_same_size
  let should_update_order_and_step_size :=
    accepted && decide (num_steps_same_size > sis.order + 1)
  let scanned :=
    order_scan should_update_order_and_step_size S.max_order sis.order
      (fun proposed_order =>
        env.error_ratio (backward_differences.getD (proposed_order + 1).toNat 0)
          (S.error_coefficients proposed_order) tol)
      error_ratio
  let order := scanned.1
  let error_ratio := scanned.2
  let new_step_size :=
    match error_ratio with
    | some e =>
        if should_update_order_and_step_size then
          next_step_size env step_size order e S.safety_factor
            S.min_step_size_factor S.max_step_size_factor
        else new_step_size
    | none => new_step_size
  let should_update_step_size := should_update_step_size || should_update_order_and_step_size
  { accepted := accepted,
    diagnostics :=
      { num_jacobian_evaluations := st.diagnostics.num_jacobian_evaluations,
        num_matrix_factorizations := num_matrix_factorizations,
        num_ode_fn_evaluations := num_ode_fn_evaluations,
        status := status },
    iterand :=
      { jacobian_mat := iterand.jacobian_mat,
        jacobian_is_up_to_date := jacobian_is_up_to_date,
        new_step_size := new_step_size,
        num_steps := num_steps,
        num_steps_same_size := num_steps_same_size,
        should_update_jacobian := should_update_jacobian,
        should_update_step_size := should_update_step_size,
        time := time,
        unitary := uu.1,
        upper := uu.2 },
    solver_internal_state :=
      { backward_differences := backward_differences,
        order := order,
        step_size := step_size } }

/-- Lines 124-126: the retry condition of the `maybe_step` loop. -/
def maybe_step_cond (s : MaybeStepState) : Bool :=
  !s.accepted && decide (s.diagnostics.status = 0)

/-- State threaded through the inner `step` loop of
`advance_to_solution_time`. -/
structure StepLoopState where
  next_time : ℚ
  diagnostics : _BDFDiagnostics
  iterand : _BDFIterand
  solver_internal_state : _BDFSolverInternalState
  state_vec : List ℚ
  times : List ℚ

/-- Lines 88-93 of bdf.py: the overshoot clamp at the top of `step`. -/
def step_clamp (next_time : ℚ) (iterand : _BDFIterand) : _BDFIterand :=
  let distance_to_next_time := next_time - iterand.time
  let overstepped := decide (iterand.new_step_size > distance_to_next_time)
  { iterand with
    new_step_size := if overstepped then distance_to_next_time else iterand.new_step_size,
    should_update_step_size := overstepped || iterand.should_update_step_size }

/-- Lines 104-117 of bdf.py: the (possibly lazy) Jacobian re-evaluation
phase of `step`; `np.where(lazy and up_to_date, old, new)` selects the old
Jacobian and counter exactly when lazy mode is on and the Jacobian is
marked up to date. -/
def step_jacobian (S : BDF) (jacobian_fn : ℚ → ℚ → ℚ) (diagnostics : _BDFDiagnostics)
    (iterand : _BDFIterand) (sis : _BDFSolverInternalState) :
    _BDFDiagnostics × _BDFIterand :=
  let jacobian_is_up_to_date := iterand.jacobian_is_up_to_date
  let skip := S.evaluate_jacobian_lazily && jacobian_is_up_to_date
  let jacobian_mat :=
    if skip then iterand.jacobian_mat
    else jacobian_fn iterand.time (sis.backward_differences.getD 0 0)
  let num_jacobian_evaluations :=
    if skip then diagnostics.num_jacobian_evaluations
    else diagnostics.num_jacobian_evaluations + 1
  ({ diagnostics with num_jacobian_evaluations := num_jacobian_evaluations },
   { iterand with jacobian_mat := jacobian_mat,
                  jacobian_is_up_to_date := jacobian_is_up_to_date })

/-- Lines 85-134 of bdf.py: a single `step` invocation — clamp against the
target time, (lazily) refresh the Jacobian, then retry `maybe_step` until
accepted or `status` is nonzero. -/
def step (S : BDF) (env : BdfUtilEnv) (jacobian_fn : ℚ → ℚ → ℚ) (fuel : ℕ)
    (st : StepLoopState) : StepLoopState :=
  let iterand := step_clamp st.next_time st.iterand
  let dj := step_jacobian S jacobian_fn st.diagnostics iterand st.solver_internal_state
  let r := while_loop maybe_step_cond (maybe_step S env) fuel
    { accepted := false, diagnostics := dj.1, iterand := dj.2,
      solver_internal_state := st.solver_internal_state }
  { st with diagnostics := r.diagnostics, iterand := r.iterand,
            solver_internal_state := r.solver_internal_state }

/-- Lines 61-63: the continuation condition of the inner `step` loop. -/
def step_cond (s : StepLoopState) : Bool :=
  decide (s.iterand.time < s.next_time) && decide (s.diagnostics.status = 0)

/-- State threaded through the outer `advance_to_solution_time` loop. -/
structure AdvanceState where
  n : ℕ
  diagnostics : _BDFDiagnostics
  iterand : _BDFIterand
  solver_internal_state : _BDFSolverInternalState
  state_vec : List ℚ
  times : List ℚ

/-- Lines 58-83 of bdf.py: advance to `solution_times[n]` by repeated
`step`s, then record the current state and the requested time into slot
`n` (the writes at lines 75-80 are unconditional). -/
def advance_to_solution_time (S : BDF) (env : BdfUtilEnv) (jacobian_fn : ℚ → ℚ → ℚ)
    (solution_times : List ℚ) (stepFuel innerFuel : ℕ) (st : AdvanceState) : AdvanceState :=
  let nth_solution_time := solution_times.getD st.n 0
  let r := while_loop step_cond (step S env jacobian_fn stepFuel) innerFuel
    { next_time := nth_solution_time, diagnostics := st.diagnostics,
      iterand := st.iterand, solver_internal_state := st.solver_internal_state,
      state_vec := st.state_vec, times := st.times }
  let state_vec := r.state_vec.set st.n (r.solver_internal_state.backward_differences.getD 0 0)
  let times := r.times.set st.n nth_solution_time
  { n := st.n + 1, diagnostics := r.diagnostics, iterand := r.iterand,
    solver_internal_state := r.solver_internal_state,
    state_vec := state_vec, times := times }

/-- Lines 310-312: the continuation condition of the outer loop. -/
def advance_cond (num_solution_times : ℕ) (s : AdvanceState) : Bool :=
  decide (s.n < num_solution_times) && decide (s.diagnostics.status = 0)

/-- Lines 286-290: the zero-initialized diagnostics. -/
def init_diagnostics : _BDFDiagnostics :=
  { num_jacobian_evaluations := 0, num_matrix_factorizations := 0,
    num_ode_fn_evaluations := 0, status := 0 }

/-- Lines 292-303: the initial iterand (scalar state, so the zero matrices
are the scalar 0). -/
def init_iterand (sis : _BDFSolverInternalState) (initial_time : ℚ) : _BDFIterand :=
  { jacobian_mat := 0, jacobian_is_up_to_date := false,
    new_step_size := sis.step_size, num_steps := 0, num_steps_same_size := 0,
    should_update_jacobian := true, should_update_step_size := false,
    time := initial_time, unitary := 0, upper := 0 }

/-- Lines 305-321 of bdf.py: the outer solve loop of `_solve`, starting
from zero-initialized output arrays. The initial internal state is a
parameter because its construction uses `bdf_util.first_step_size`, which
is not under `src/`. -/
def solve_loop (S : BDF) (env : BdfUtilEnv) (jacobian_fn : ℚ → ℚ → ℚ)
    (initial_time : ℚ) (sis0 : _BDFSolverInternalState) (solution_times : List ℚ)
    (outerFuel innerFuel stepFuel : ℕ) : AdvanceState :=
  while_loop (advance_cond solution_times.length)
    (advance_to_solution_time S env jacobian_fn solution_times stepFuel innerFuel)
    outerFuel
    { n := 0, diagnostics := init_diagnostics,
      iterand := init_iterand sis0 initial_time,
      solver_internal_state := sis0,
      state_vec := List.replicate solution_times.length 0,
      times := List.replicate solution_times.length 0 }

/-- Mirror of the `Results` record returned by `_solve`. -/
structure Results where
  times : List ℚ
  states : List ℚ
  diagnostics : _BDFDiagnostics
  solver_internal_state : _BDFSolverInternalState

/-- Lines 51-325 of bdf.py: `_solve`, projecting the final loop state. -/
def _solve (S : BDF) (env : BdfUtilEnv) (jacobian_fn : ℚ → ℚ → ℚ)
    (initial_time : ℚ) (sis0 : _BDFSolverInternalState) (solution_times : List ℚ)
    (outerFuel innerFuel stepFuel : ℕ) : Results :=
  let r := solve_loop S env jacobian_fn initial_time sis0 solution_times
    outerFuel innerFuel stepFuel
  { times := r.times, states := r.state_vec, diagnostics := r.diagnostics,
    solver_internal_state := r.solver_internal_state }

/-- Modelled from the spec: `bdf_util.RECIPROCAL_SUMS` and `bdf_util.ORDERS`
are fixed constant vectors of the external `bdf_util` module (not under
`src/`); they enter `_get_coefficients` as a parameter and as the index
`k` respectively, per the spec formula `1/(k+1)` for `1/(ORDERS+1)`.
Lines 328-335 of bdf.py, elementwise. -/
def _get_coefficients (bdf_coefficients reciprocal_sums : ℕ → ℚ) : (ℕ → ℚ) × (ℕ → ℚ) :=
  (fun k => 1 / ((1 - bdf_coefficients k) * reciprocal_sums k),
   fun k => bdf_coefficients k * reciprocal_sums k + 1 / ((k : ℚ) + 1))

/-! ## Concrete instances used by witnesses and counterexamples -/

/-- An environment whose Newton corrector always fails (one iteration),
with transparent history kernels; `error_ratio` returns its first
argument, so accepted-step scenarios can be steered through the
backward-difference rows. -/
def envFail : BdfUtilEnv :=
  { interpolate_backward_differences := fun bd _ _ => bd,
    newton_qr := fun _ _ _ => (0, 0),
    newton := fun _ _ _ _ _ _ _ _ _ _ => (false, 0, 0, 1),
    error_ratio := fun v _ _ => v,
    update_backward_differences := fun bd _ _ _ => bd,
    powNegRecip := fun _ _ => 1 }

/-- A small concrete configuration (step budget 3). -/
def S0 : BDF :=
  { rtol := 1/1000, atol := 1/1000000, safety_factor := 9/10,
    min_step_size_factor := 1/10, max_step_size_factor := 10,
    max_num_steps := 3, max_order := 5, max_num_newton_iters := 4,
    newton_tol_factor := 1/10, newton_step_size_factor := 1/2,
    evaluate_jacobian_lazily := false,
    newton_coefficients := fun _ => 1, error_coefficients := fun _ => 0,
    ode_fn_vec := fun _ y => y }

/-- A concrete warm-start state: state 7, order 1, step size 1. -/
def sis1 : _BDFSolverInternalState :=
  { backward_differences := #[7, 0, 0, 0, 0, 0, 0, 0], order := 1, step_size := 1 }

/-- A fresh retry-loop state over `sis1` at time 0. -/
def st1 : MaybeStepState :=
  { accepted := false, diagnostics := init_diagnostics,
    iterand := init_iterand sis1 0, solver_internal_state := sis1 }

/-- The state `st1` with the attempt counter already at the budget of `S0`. -/
def st2 : MaybeStepState :=
  { st1 with iterand := { st1.iterand with num_steps := 3 } }

/-- The state `st1` with the Jacobian marked up to date. -/
def stU : MaybeStepState :=
  { st1 with iterand := { st1.iterand with jacobian_is_up_to_date := true } }

/-- An environment whose Newton corrector always converges with a zero
next backward difference, and whose accepted-step history update yields
rows making the order scan adopt -1 and then override it with +1. -/
def envAcc : BdfUtilEnv :=
  { interpolate_backward_differences := fun bd _ _ => bd,
    newton_qr := fun _ _ _ => (0, 0),
    newton := fun _ _ _ _ _ _ _ _ _ _ => (true, 0, 0, 1),
    error_ratio := fun v _ _ => v,
    update_backward_differences := fun _ _ _ _ => #[0, 0, -1, 0, -2, 0, 0, 0],
    powNegRecip := fun _ _ => 1 }

/-- A warm-start state at order 2 for the order-scan witness. -/
def sisC1 : _BDFSolverInternalState :=
  { backward_differences := #[7, 0, 0, 0, 0, 0, 0, 0], order := 2, step_size := 1 }

/-- A retry-loop state over `sisC1` with five previous same-size steps, so
an accepted attempt passes the hysteresis gate. -/
def stC1 : MaybeStepState :=
  { accepted := false, diagnostics := init_diagnostics,
    iterand := { init_iterand sisC1 0 with num_steps_same_size := 5 },
    solver_internal_state := sisC1 }

/-- The configuration `S0` with integer step-size factors, used by the
step-size bound witnesses. -/
def SPos : BDF :=
  { S0 with min_step_size_factor := 1, max_step_size_factor := 2,
            newton_step_size_factor := 1 }

/-- The configuration `S0` with a zero step budget, so the very first
attempt is already over budget. -/
def SBudget0 : BDF := { S0 with max_num_steps := 0 }

/-- A trivial Jacobian function for concrete runs. -/
def jac0 : ℚ → ℚ → ℚ := fun _ _ => 0

/-- With the branchless gate off, the order scan adopts nothing. -/
theorem order_scan_gate_false (mo ord : ℤ) (P : ℤ → ℚ) (er0 : Option ℚ) :
    order_scan false mo ord P er0 = (ord, er0) := by
  simp [order_scan, List.foldl_cons, List.foldl_nil]

/-- With the branchless gate on, the order scan computes exactly the
claim's left-to-right strict-improvement scan. -/
theorem order_scan_gate_true (mo ord : ℤ) (P : ℤ → ℚ) (er0 : Option ℚ) :
    order_scan true mo ord P er0 = order_scan_spec mo ord P er0 := by
  simp only [order_scan, order_scan_spec, List.foldl_cons, List.foldl_nil, Bool.true_and]
  by_cases h1 : optLt (some (P (clipZ (ord + -1) 1 mo))) er0 = true
  · by_cases h2 : optLt (some (P (clipZ (ord + 1) 1 mo)))
        (some (P (clipZ (ord + -1) 1 mo))) = true
    · simp [h1, h2]
    · simp [h1, h2]
  · by_cases h2 : optLt (some (P (clipZ (ord + 1) 1 mo))) er0 = true
    · simp [h1, h2]
    · simp [h1, h2]

/-! ## C9: every attempt increments the attempt counter -/

/-- Claim C9: every invocation of `maybe_step` increments `num_steps` by
exactly one, whatever the outcome of the attempt, and the fatal status is
keyed off the incoming attempt count alone, so `max_num_steps` bounds
attempts (accepted or not), not accepted steps. -/
theorem maybe_step_counts_every_attempt (S : BDF) (env : BdfUtilEnv) (st : MaybeStepState) :
    (maybe_step S env st).iterand.num_steps = st.iterand.num_steps + 1 ∧
    (maybe_step S env st).diagnostics.status =
      (if st.iterand.num_steps = S.max_num_steps then -1 else 0) :=
  ⟨rfl, rfl⟩

/-! ## C6: the overshoot clamp in `step` -/

/-- Claim C6: at the top of every `step` invocation, the pending step size
is clamped to `next_time - time` exactly when it exceeds that distance, in
which case a step-size update is forced; otherwise both the pending step
size and the flag are left unchanged (`step` is defined through
`step_clamp`). -/
theorem step_clamp_overshoot (next_time : ℚ) (it : _BDFIterand) :
    ((step_clamp next_time it).new_step_size,
     (step_clamp next_time it).should_update_step_size) =
      if it.new_step_size > next_time - it.time then (next_time - it.time, true)
      else (it.new_step_size, it.should_update_step_size) := by
  by_cases h : it.new_step_size > next_time - it.time <;> simp [step_clamp, h]

/-! ## C7: lazy Jacobian evaluation in `step` -/

/-- The retry loop around `maybe_step` never touches the stored Jacobian
or the Jacobian-evaluation counter. -/
theorem while_maybe_preserves_jacobian (S : BDF) (env : BdfUtilEnv) :
    ∀ (fuel : ℕ) (s : MaybeStepState),
      (while_loop maybe_step_cond (maybe_step S env) fuel s).iterand.jacobian_mat =
        s.iterand.jacobian_mat ∧
      (while_loop maybe_step_cond (maybe_step S env) fuel s).diagnostics.num_jacobian_evaluations =
        s.diagnostics.num_jacobian_evaluations := by
  intro fuel
  induction fuel with
  | zero => intro s; exact ⟨rfl, rfl⟩
  | succ n ih =>
      intro s
      by_cases h : maybe_step_cond s = true
      · have hs := ih (maybe_step S env s)
        simpa [while_loop, h] using hs
      · simp [while_loop, h]

/-- Claim C7: when lazy mode is on and the Jacobian is marked up to date, a
`step` invocation leaves the stored Jacobian and `num_jacobian_evaluations`
unchanged; in every other case the Jacobian is re-evaluated at the current
time and state estimate, replaces the stored matrix, and the counter
increases by exactly one. -/
theorem step_lazy_jacobian (S : BDF) (env : BdfUtilEnv) (jacobian_fn : ℚ → ℚ → ℚ)
    (fuel : ℕ) (st : StepLoopState) :
    ((step S env jacobian_fn fuel st).iterand.jacobian_mat,
     (step S env jacobian_fn fuel st).diagnostics.num_jacobian_evaluations) =
      if S.evaluate_jacobian_lazily && st.iterand.jacobian_is_up_to_date then
        (st.iterand.jacobian_mat, st.diagnostics.num_jacobian_evaluations)
      else
        (jacobian_fn st.iterand.time (st.solver_internal_state.backward_differences.getD 0 0),
         st.diagnostics.num_jacobian_evaluations + 1) := by
  obtain ⟨h1, h2⟩ := while_maybe_preserves_jacobian S env fuel
    { accepted := false,
      diagnostics := (step_jacobian S jacobian_fn st.diagnostics
        (step_clamp st.next_time st.iterand) st.solver_internal_state).1,
      iterand := (step_jacobian S jacobian_fn st.diagnostics
        (step_clamp st.next_time st.iterand) st.solver_internal_state).2,
      solver_internal_state := st.solver_internal_state }
  have g1 : (step S env jacobian_fn fuel st).iterand.jacobian_mat =
      (step_jacobian S jacobian_fn st.diagnostics
        (step_clamp st.next_time st.iterand) st.solver_internal_state).2.jacobian_mat := h1
  have g2 : (step S env jacobian_fn fuel st).diagnostics.num_jacobian_evaluations =
      (step_jacobian S jacobian_fn st.diagnostics
        (step_clamp st.next_time st.iterand) st.solver_internal_state).1.num_jacobian_evaluations := h2
  rw [g1, g2]
  by_cases hc : (S.evaluate_jacobian_lazily && st.iterand.jacobian_is_up_to_date) = true <;>
    simp [step_jacobian, step_clamp, hc]

/-! ## C2: the step-budget check in `maybe_step` -/

/-- Claim C2 (amended): when the attempt counter has reached the budget,
`maybe_step` sets `status = -1`, yet — being branchless — it still runs
the whole attempt: the counters advance (`num_steps`, factorizations, ODE
evaluations) on that very invocation, and the surrounding loops stop only
because the returned status is nonzero. -/
theorem maybe_step_budget_exhausted (S : BDF) (env : BdfUtilEnv) (st : MaybeStepState)
    (h : st.iterand.num_steps = S.max_num_steps) :
    (maybe_step S env st).diagnostics.status = -1 ∧
    (maybe_step S env st).iterand.num_steps = S.max_num_steps + 1 ∧
    (maybe_step S env st).diagnostics.num_matrix_factorizations =
      st.diagnostics.num_matrix_factorizations + 1 ∧
    (maybe_step S env st).diagnostics.num_ode_fn_evaluations =
      st.diagnostics.num_ode_fn_evaluations +
        (attempt_newton S env st.iterand st.solver_internal_state).2.2.2 ∧
    maybe_step_cond (maybe_step S env st) = false := by
  have hs : (maybe_step S env st).diagnostics.status = -1 := by
    show attempt_status S st.iterand = -1
    simp [attempt_status, h]
  refine ⟨hs, ?_, rfl, rfl, ?_⟩
  · show st.iterand.num_steps + 1 = S.max_num_steps + 1
    rw [h]
  · simp [maybe_step_cond, hs]

/-- Counterexample to claim C2 as stated: at a concrete state whose attempt
counter equals the budget, `maybe_step` does not return without work — it
still increments `num_steps`, the factorization counter, and the ODE
evaluation counter on that invocation (while setting `status = -1`). -/
theorem maybe_step_budget_counterexample :
    st2.iterand.num_steps = S0.max_num_steps ∧
    (maybe_step S0 envFail st2).diagnostics.status = -1 ∧
    (maybe_step S0 envFail st2).iterand.num_steps = st2.iterand.num_steps + 1 ∧
    (maybe_step S0 envFail st2).diagnostics.num_matrix_factorizations =
      st2.diagnostics.num_matrix_factorizations + 1 ∧
    (maybe_step S0 envFail st2).diagnostics.num_ode_fn_evaluations =
      st2.diagnostics.num_ode_fn_evaluations + 1 := by
  decide

/-- Witness for the amended C2 theorem at the concrete state `st2`. -/
theorem maybe_step_budget_exhausted_witness :
    st2.iterand.num_steps = S0.max_num_steps ∧
    (maybe_step S0 envFail st2).diagnostics.status = -1 :=
  ⟨by decide, (maybe_step_budget_exhausted S0 envFail st2 (by decide)).1⟩

/-! ## C10: rejected attempts change neither time nor order -/

/-- Claim C10: whenever a `maybe_step` attempt comes back not accepted, the
solver time and the integration order are exactly those of the input. -/
theorem maybe_step_rejected_frame (S : BDF) (env : BdfUtilEnv) (st : MaybeStepState)
    (h : (maybe_step S env st).accepted = false) :
    (maybe_step S env st).iterand.time = st.iterand.time ∧
    (maybe_step S env st).solver_internal_state.order = st.solver_internal_state.order := by
  have ha : optLt (attempt_error_ratio S env st.iterand st.solver_internal_state) (some 1) = false := h
  constructor <;> simp [maybe_step, ha, order_scan_gate_false]

/-- Witness for C10 at the concrete state `st1` (Newton fails there, so the
attempt is rejected). -/
theorem maybe_step_rejected_frame_witness :
    (maybe_step S0 envFail st1).accepted = false ∧
    (maybe_step S0 envFail st1).iterand.time = st1.iterand.time ∧
    (maybe_step S0 envFail st1).solver_internal_state.order = st1.solver_internal_state.order :=
  ⟨by decide, (maybe_step_rejected_frame S0 envFail st1 (by decide)).1,
    (maybe_step_rejected_frame S0 envFail st1 (by decide)).2⟩

/-! ## C5: Newton-failure handling in `maybe_step` -/

/-- Claim C5: on an attempt whose Newton corrector fails, if the Jacobian
was up to date the new step size is the attempt's step size shrunk by
`newton_step_size_factor`, a step-size update is pending, and the order is
unchanged; if the Jacobian was stale, the Jacobian is marked for
re-evaluation and this branch leaves the step size alone (the pending step
size equals the attempt's step size, with no update pending). -/
theorem maybe_step_newton_failure (S : BDF) (env : BdfUtilEnv) (st : MaybeStepState)
    (h : (attempt_newton S env st.iterand st.solver_internal_state).1 = false) :
    (st.iterand.jacobian_is_up_to_date = true →
      (maybe_step S env st).iterand.new_step_size =
        attempt_step_size st.iterand st.solver_internal_state * S.newton_step_size_factor ∧
      (maybe_step S env st).iterand.should_update_step_size = true ∧
      (maybe_step S env st).solver_internal_state.order = st.solver_internal_state.order) ∧
    (st.iterand.jacobian_is_up_to_date = false →
      (maybe_step S env st).iterand.should_update_jacobian = true ∧
      (maybe_step S env st).iterand.new_step_size =
        attempt_step_size st.iterand st.solver_internal_state ∧
      (maybe_step S env st).iterand.should_update_step_size = false) := by
  have he : attempt_error_ratio S env st.iterand st.solver_internal_state = none := by
    simp [attempt_error_ratio, h]
  constructor <;> intro hu <;>
    simp [maybe_step, he, h, hu, optLt, order_scan_gate_false]

/-- Witness for C5 at the concrete state `stU` (Jacobian up to date,
Newton fails). -/
theorem maybe_step_newton_failure_witness :
    (attempt_newton S0 envFail stU.iterand stU.solver_internal_state).1 = false ∧
    stU.iterand.jacobian_is_up_to_date = true ∧
    ((maybe_step S0 envFail stU).iterand.new_step_size =
      attempt_step_size stU.iterand stU.solver_internal_state * S0.newton_step_size_factor ∧
    (maybe_step S0 envFail stU).iterand.should_update_step_size = true ∧
    (maybe_step S0 envFail stU).solver_internal_state.order = stU.solver_internal_state.order) :=
  ⟨by decide, by decide,
    (maybe_step_newton_failure S0 envFail stU (by decide)).1 (by decide)⟩

/-! ## C8: the derived coefficient tables -/

/-- Claim C8: `_get_coefficients` is a pure function computing
`newtonCoefficients[k] = 1 / ((1 - bdfCoefficients[k]) * reciprocalSums[k])`
and `errorCoefficients[k] = bdfCoefficients[k] * reciprocalSums[k] + 1/(k+1)`
elementwise; away from the degenerate `bdfCoefficients[k] = 1` the Newton
coefficient is a genuine multiplicative inverse of
`(1 - bdfCoefficients[k]) * reciprocalSums[k]` whenever that product is
nonzero. -/
theorem get_coefficients_formulas (b rs : ℕ → ℚ) (k : ℕ) (hb : b k ≠ 1) :
    (_get_coefficients b rs).1 k = 1 / ((1 - b k) * rs k) ∧
    (_get_coefficients b rs).2 k = b k * rs k + 1 / ((k : ℚ) + 1) ∧
    (rs k ≠ 0 → ((1 - b k) * rs k) * (_get_coefficients b rs).1 k = 1) := by
  refine ⟨rfl, rfl, fun hr => ?_⟩
  have h1 : (1 : ℚ) - b k ≠ 0 := sub_ne_zero.mpr (Ne.symm hb)
  show ((1 - b k) * rs k) * (1 / ((1 - b k) * rs k)) = 1
  exact mul_one_div_cancel (mul_ne_zero h1 hr)

/-- Witness for C8 at the concrete base coefficient 2 and reciprocal sum 3. -/
theorem get_coefficients_formulas_witness :
    (fun _ : ℕ => (2 : ℚ)) 1 ≠ 1 ∧
    (_get_coefficients (fun _ : ℕ => (2 : ℚ)) (fun _ : ℕ => (3 : ℚ))).1 1 =
      1 / ((1 - 2) * 3) ∧
    ((1 - (2 : ℚ)) * 3) *
      (_get_coefficients (fun _ : ℕ => (2 : ℚ)) (fun _ : ℕ => (3 : ℚ))).1 1 = 1 :=
  ⟨by decide,
    (get_coefficients_formulas (fun _ => 2) (fun _ => 3) 1 (by decide)).1,
    (get_coefficients_formulas (fun _ => 2) (fun _ => 3) 1 (by decide)).2.2 (by decide)⟩

/-! ## C1: the order/step-size co-adaptation scan -/

/-- Claim C1: the co-adaptation changes order and error ratio only on an
accepted attempt whose (already incremented) `num_steps_same_size` exceeds
`order + 1`; when it runs, the resulting order is exactly the result of
the left-to-right strict-improvement scan of `order_scan_spec` (not a
global argmin), and the recomputed pending step size is keyed off the
scan's final order and error ratio. -/
theorem maybe_step_order_scan (S : BDF) (env : BdfUtilEnv) (st : MaybeStepState) :
    (((maybe_step S env st).accepted &&
        decide ((maybe_step S env st).iterand.num_steps_same_size >
          st.solver_internal_state.order + 1)) = true →
      (maybe_step S env st).solver_internal_state.order =
        (order_scan_spec S.max_order st.solver_internal_state.order
          (fun p => env.error_ratio
            ((maybe_step S env st).solver_internal_state.backward_differences.getD
              (p + 1).toNat 0)
            (S.error_coefficients p) (attempt_tol S env st.iterand st.solver_internal_state))
          (attempt_error_ratio S env st.iterand st.solver_internal_state)).1 ∧
      (∀ e, (order_scan_spec S.max_order st.solver_internal_state.order
          (fun p => env.error_ratio
            ((maybe_step S env st).solver_internal_state.backward_differences.getD
              (p + 1).toNat 0)
            (S.error_coefficients p) (attempt_tol S env st.iterand st.solver_internal_state))
          (attempt_error_ratio S env st.iterand st.solver_internal_state)).2 = some e →
        (maybe_step S env st).iterand.new_step_size =
          next_step_size env (maybe_step S env st).solver_internal_state.step_size
            ((order_scan_spec S.max_order st.solver_internal_state.order
              (fun p => env.error_ratio
                ((maybe_step S env st).solver_internal_state.backward_differences.getD
                  (p + 1).toNat 0)
                (S.error_coefficients p)
                (attempt_tol S env st.iterand st.solver_internal_state))
              (attempt_error_ratio S env st.iterand st.solver_internal_state)).1) e
            S.safety_factor S.min_step_size_factor S.max_step_size_factor)) ∧
    (((maybe_step S env st).accepted &&
        decide ((maybe_step S env st).iterand.num_steps_same_size >
          st.solver_internal_state.order + 1)) = false →
      (maybe_step S env st).solver_internal_state.order = st.solver_internal_state.order) := by
  constructor
  · intro hgate
    rw [Bool.and_eq_true] at hgate
    have ha : (maybe_step S env st).accepted = true := hgate.1
    have hn : decide ((maybe_step S env st).iterand.num_steps_same_size >
        st.solver_internal_state.order + 1) = true := hgate.2
    simp only [maybe_step] at ha hn
    simp only [maybe_step, ha] at hn ⊢
    simp only [hn, Bool.and_self, order_scan_gate_true]
    constructor
    · trivial
    · intro e hsome
      rw [hsome]
      simp
  · intro hgate
    simp only [maybe_step] at hgate
    simp only [maybe_step, hgate, order_scan_gate_false]

/-- Witness for C1 at the concrete state `stC1`: the attempt is accepted
with six same-size steps against order 2, the scan first adopts order 1
(ratio -1 beats 0) and then overrides it with order 3 (ratio -2), so the
final order is 3 — the left-to-right scan result. -/
theorem maybe_step_order_scan_witness :
    ((maybe_step S0 envAcc stC1).accepted &&
      decide ((maybe_step S0 envAcc stC1).iterand.num_steps_same_size >
        stC1.solver_internal_state.order + 1)) = true ∧
    (maybe_step S0 envAcc stC1).solver_internal_state.order = 3 ∧
    (maybe_step S0 envAcc stC1).solver_internal_state.order =
      (order_scan_spec S0.max_order stC1.solver_internal_state.order
        (fun p => envAcc.error_ratio
          ((maybe_step S0 envAcc
            stC1).solver_internal_state.backward_differences.getD (p + 1).toNat 0)
          (S0.error_coefficients p)
          (attempt_tol S0 envAcc stC1.iterand stC1.solver_internal_state))
        (attempt_error_ratio S0 envAcc stC1.iterand stC1.solver_internal_state)).1 :=
  ⟨by decide, by decide,
    ((maybe_step_order_scan S0 envAcc stC1).1 (by decide)).1⟩

/-! ## C3: step-size bounds and positivity -/

/-- Any `while_loop` run preserves an invariant that its body preserves on
states satisfying the loop condition. -/
theorem while_loop_inv {σ : Type} (cond : σ → Bool) (body : σ → σ) (P : σ → Prop)
    (hbody : ∀ s, cond s = true → P s → P (body s)) :
    ∀ (fuel : ℕ) (s : σ), P s → P (while_loop cond body fuel s) := by
  intro fuel
  induction fuel with
  | zero => intro s hs; exact hs
  | succ n ih =>
      intro s hs
      by_cases h : cond s = true
      · rw [while_loop, if_pos h]
        exact ih _ (hbody s h hs)
      · rw [while_loop, if_neg (by simpa using h)]
        exact hs

/-- The clip lands inside the configured factor interval. -/
theorem clampQ_mem (x lo hi : ℚ) (h : lo ≤ hi) :
    lo ≤ clampQ x lo hi ∧ clampQ x lo hi ≤ hi :=
  ⟨le_min (le_max_right x lo) h, min_le_right _ _⟩

/-- The spec's step-size update formula stays within
`[minStepSizeFactor, maxStepSizeFactor] × stepSize`. -/
theorem next_step_size_bounds (env : BdfUtilEnv) (step_size : ℚ) (order : ℤ)
    (er sf lo hi : ℚ) (hstep : 0 < step_size) (hlh : lo ≤ hi) :
    lo * step_size ≤ next_step_size env step_size order er sf lo hi ∧
    next_step_size env step_size order er sf lo hi ≤ hi * step_size := by
  obtain ⟨ha, hb⟩ := clampQ_mem (sf * env.powNegRecip er (order + 1)) lo hi hlh
  constructor
  · calc lo * step_size = step_size * lo := mul_comm _ _
      _ ≤ step_size * clampQ (sf * env.powNegRecip er (order + 1)) lo hi :=
          mul_le_mul_of_nonneg_left ha hstep.le
  · calc next_step_size env step_size order er sf lo hi
        ≤ step_size * hi := mul_le_mul_of_nonneg_left hb hstep.le
      _ = hi * step_size := mul_comm _ _

/-- The spec's step-size update formula yields a positive step. -/
theorem next_step_size_pos (env : BdfUtilEnv) (step_size : ℚ) (order : ℤ)
    (er sf lo hi : ℚ) (hstep : 0 < step_size) (hlo : 0 < lo) (hlh : lo ≤ hi) :
    0 < next_step_size env step_size order er sf lo hi :=
  mul_pos hstep (lt_of_lt_of_le hlo (clampQ_mem _ lo hi hlh).1)

set_option maxHeartbeats 1000000 in
/-- One attempt keeps the current and pending step sizes positive. -/
theorem maybe_step_pos (S : BDF) (env : BdfUtilEnv)
    (h1 : 0 < S.min_step_size_factor) (h2 : S.min_step_size_factor ≤ S.max_step_size_factor)
    (h3 : 0 < S.newton_step_size_factor) (st : MaybeStepState)
    (hs : 0 < st.solver_internal_state.step_size) (hn : 0 < st.iterand.new_step_size) :
    0 < (maybe_step S env st).solver_internal_state.step_size ∧
    0 < (maybe_step S env st).iterand.new_step_size := by
  have hstp : 0 < attempt_step_size st.iterand st.solver_internal_state := by
    unfold attempt_step_size
    split
    · exact hn
    · exact hs
  refine ⟨hstp, ?_⟩
  simp only [maybe_step]
  repeat' split
  all_goals first
    | exact next_step_size_pos env _ _ _ _ _ _ hstp h1 h2
    | exact mul_pos hstp h3
    | exact mul_pos hstp one_pos

/-- The order scan never turns a real error ratio into NaN. -/
theorem order_scan_ne_none (g : Bool) (mo ord : ℤ) (P : ℤ → ℚ) (e : ℚ) :
    (order_scan g mo ord P (some e)).2 ≠ none := by
  simp only [order_scan, List.foldl_cons, List.foldl_nil]
  repeat' split
  all_goals simp

/-- A `step` invocation launched while the driver loop condition holds
keeps the current and pending step sizes positive. -/
theorem step_pos (S : BDF) (env : BdfUtilEnv)
    (h1 : 0 < S.min_step_size_factor) (h2 : S.min_step_size_factor ≤ S.max_step_size_factor)
    (h3 : 0 < S.newton_step_size_factor) (jacobian_fn : ℚ → ℚ → ℚ) (fuel : ℕ)
    (s : StepLoopState) (hc : step_cond s = true)
    (hP : 0 < s.solver_internal_state.step_size ∧ 0 < s.iterand.new_step_size) :
    0 < (step S env jacobian_fn fuel s).solver_internal_state.step_size ∧
    0 < (step S env jacobian_fn fuel s).iterand.new_step_size := by
  have ht : s.iterand.time < s.next_time := by
    have hcc := hc
    simp [step_cond] at hcc
    exact hcc.1
  have hcl : 0 < (step_clamp s.next_time s.iterand).new_step_size := by
    simp only [step_clamp]
    split
    · exact sub_pos.mpr ht
    · exact hP.2
  have hw := while_loop_inv maybe_step_cond (maybe_step S env)
    (fun m : MaybeStepState =>
      0 < m.solver_internal_state.step_size ∧ 0 < m.iterand.new_step_size)
    (fun m _ hm => maybe_step_pos S env h1 h2 h3 m hm.1 hm.2) fuel
    { accepted := false,
      diagnostics := (step_jacobian S jacobian_fn s.diagnostics
        (step_clamp s.next_time s.iterand) s.solver_internal_state).1,
      iterand := (step_jacobian S jacobian_fn s.diagnostics
        (step_clamp s.next_time s.iterand) s.solver_internal_state).2,
      solver_internal_state := s.solver_internal_state }
    ⟨hP.1, hcl⟩
  exact ⟨hw.1, hw.2⟩

/-- Advancing to one output time keeps the step sizes positive. -/
theorem advance_pos (S : BDF) (env : BdfUtilEnv)
    (h1 : 0 < S.min_step_size_factor) (h2 : S.min_step_size_factor ≤ S.max_step_size_factor)
    (h3 : 0 < S.newton_step_size_factor) (jacobian_fn : ℚ → ℚ → ℚ)
    (sol : List ℚ) (sF iF : ℕ) (s : AdvanceState)
    (hP : 0 < s.solver_internal_state.step_size ∧ 0 < s.iterand.new_step_size) :
    0 < (advance_to_solution_time S env jacobian_fn sol sF iF
          s).solver_internal_state.step_size ∧
    0 < (advance_to_solution_time S env jacobian_fn sol sF iF
          s).iterand.new_step_size := by
  have hw := while_loop_inv step_cond (step S env jacobian_fn sF)
    (fun t : StepLoopState =>
      0 < t.solver_internal_state.step_size ∧ 0 < t.iterand.new_step_size)
    (fun t hc hPt => step_pos S env h1 h2 h3 jacobian_fn sF t hc hPt) iF
    { next_time := sol.getD s.n 0, diagnostics := s.diagnostics, iterand := s.iterand,
      solver_internal_state := s.solver_internal_state, state_vec := s.state_vec,
      times := s.times }
    ⟨hP.1, hP.2⟩
  exact ⟨hw.1, hw.2⟩

set_option maxHeartbeats 1000000 in
/-- Claim C3: for configurations with `0 < minStepSizeFactor ≤
maxStepSizeFactor` and `0 < newtonStepSizeFactor`, (i) on every accepted
attempt that leaves a step-size update pending, the pending step size lies
in `[minStepSizeFactor, maxStepSizeFactor]` times the step size the
attempt used; (ii) the Step Driver's overshoot clamp keeps the pending
step size positive whenever the target lies ahead of the current time;
(iii) every run of the solve loop started from a positive warm-start step
size keeps both the current and pending step sizes strictly positive. -/
theorem step_size_bounds (S : BDF) (env : BdfUtilEnv)
    (h1 : 0 < S.min_step_size_factor) (h2 : S.min_step_size_factor ≤ S.max_step_size_factor)
    (h3 : 0 < S.newton_step_size_factor) :
    (∀ st : MaybeStepState,
      (maybe_step S env st).accepted = true →
      (maybe_step S env st).iterand.should_update_step_size = true →
      0 < (maybe_step S env st).solver_internal_state.step_size →
        S.min_step_size_factor * (maybe_step S env st).solver_internal_state.step_size ≤
          (maybe_step S env st).iterand.new_step_size ∧
        (maybe_step S env st).iterand.new_step_size ≤
          S.max_step_size_factor * (maybe_step S env st).solver_internal_state.step_size) ∧
    (∀ (next_time : ℚ) (it : _BDFIterand), it.time < next_time → 0 < it.new_step_size →
      0 < (step_clamp next_time it).new_step_size) ∧
    (∀ (jacobian_fn : ℚ → ℚ → ℚ) (t0 : ℚ) (sis0 : _BDFSolverInternalState) (sol : List ℚ)
      (oF iF sF : ℕ), 0 < sis0.step_size →
      0 < (solve_loop S env jacobian_fn t0 sis0 sol oF iF sF).solver_internal_state.step_size ∧
      0 < (solve_loop S env jacobian_fn t0 sis0 sol oF iF sF).iterand.new_step_size) := by
  refine ⟨?_, ?_, ?_⟩
  · intro st hacc hupd hstp
    have hstp2 : 0 < attempt_step_size st.iterand st.solver_internal_state := hstp
    have hacc2 : optLt (attempt_error_ratio S env st.iterand st.solver_internal_state)
        (some 1) = true := hacc
    cases he : attempt_error_ratio S env st.iterand st.solver_internal_state with
    | none => rw [he] at hacc2; simp [optLt] at hacc2
    | some e0 =>
        have hconv : (attempt_newton S env st.iterand st.solver_internal_state).1 = true := by
          by_cases hcn : (attempt_newton S env st.iterand st.solver_internal_state).1 = true
          · exact hcn
          · simp [attempt_error_ratio, hcn] at he
        have ha3 : optLt (some e0) (some 1) = true := by rw [he] at hacc2; exact hacc2
        simp only [maybe_step] at hupd ⊢
        simp [he, hconv, ha3] at hupd
        simp [he, hconv, ha3, hupd]
        refine ⟨?_, ?_⟩ <;> split
        all_goals first
          | exact (next_step_size_bounds env _ _ _ _ _ _ hstp2 h2).1
          | exact (next_step_size_bounds env _ _ _ _ _ _ hstp2 h2).2
          | exact absurd (by assumption) (order_scan_ne_none _ _ _ _ _)
  · intro next_time it ht hn
    simp only [step_clamp]
    split
    · exact sub_pos.mpr ht
    · exact hn
  · intro jacobian_fn t0 sis0 sol oF iF sF h0
    have hw := while_loop_inv (advance_cond sol.length)
      (advance_to_solution_time S env jacobian_fn sol sF iF)
      (fun a : AdvanceState =>
        0 < a.solver_internal_state.step_size ∧ 0 < a.iterand.new_step_size)
      (fun a _ hPa => advance_pos S env h1 h2 h3 jacobian_fn sol sF iF a hPa) oF
      { n := 0, diagnostics := init_diagnostics,
        iterand := init_iterand sis0 t0, solver_internal_state := sis0,
        state_vec := List.replicate sol.length 0,
        times := List.replicate sol.length 0 }
      ⟨h0, h0⟩
    exact ⟨hw.1, hw.2⟩

/-- Witness for C3: at `stC1` under `SPos` the attempt is accepted with an
update pending, and the new step size obeys the factor bounds; the clamp
at time 0 against target 1 keeps the pending step positive. -/
theorem step_size_bounds_witness :
    (0 < SPos.min_step_size_factor ∧
      SPos.min_step_size_factor ≤ SPos.max_step_size_factor ∧
      0 < SPos.newton_step_size_factor ∧
      (maybe_step SPos envAcc stC1).accepted = true ∧
      (maybe_step SPos envAcc stC1).iterand.should_update_step_size = true ∧
      0 < (maybe_step SPos envAcc stC1).solver_internal_state.step_size) ∧
    (SPos.min_step_size_factor * (maybe_step SPos envAcc stC1).solver_internal_state.step_size ≤
        (maybe_step SPos envAcc stC1).iterand.new_step_size ∧
      (maybe_step SPos envAcc stC1).iterand.new_step_size ≤
        SPos.max_step_size_factor * (maybe_step SPos envAcc stC1).solver_internal_state.step_size) ∧
    0 < (step_clamp 1 st1.iterand).new_step_size :=
  ⟨⟨by decide, by decide, by decide, by decide, by decide, by decide⟩,
    (step_size_bounds SPos envAcc (by decide) (by decide) (by decide)).1 stC1
      (by decide) (by decide) (by decide),
    (step_size_bounds SPos envAcc (by decide) (by decide) (by decide)).2.1 1 st1.iterand
      (by decide) (by decide)⟩

/-! ## C4: output slots around a fatal stop -/

/-- Every slot of the zero-initialized output array reads zero. -/
theorem getD_replicate (n k : ℕ) : (List.replicate n (0 : ℚ)).getD k 0 = 0 := by
  induction n generalizing k with
  | zero => simp
  | succ m ih =>
      cases k with
      | zero => simp [List.replicate]
      | succ kk => simp [List.replicate, List.getD_cons_succ, ih]

/-- Writing one slot leaves every other slot unchanged. -/
theorem getD_set_ne (l : List ℚ) (i j : ℕ) (v : ℚ) (h : i ≠ j) :
    (l.set i v).getD j 0 = l.getD j 0 := by
  induction l generalizing i j with
  | nil => simp
  | cons a t ih =>
      cases i with
      | zero =>
          cases j with
          | zero => exact absurd rfl h
          | succ jj => simp [List.set]
      | succ ii =>
          cases j with
          | zero => simp [List.set]
          | succ jj =>
              simp only [List.set, List.getD_cons_succ]
              exact ih ii jj (fun e => h (by rw [e]))

/-- Writing an in-range slot stores the written value. -/
theorem getD_set_eq (l : List ℚ) (i : ℕ) (v : ℚ) (h : i < l.length) :
    (l.set i v).getD i 0 = v := by
  induction l generalizing i with
  | nil => simp at h
  | cons a t ih =>
      cases i with
      | zero => simp [List.set]
      | succ ii =>
          simp only [List.set, List.getD_cons_succ]
          exact ih ii (by simpa using h)

/-- The inner driver loop never touches the output arrays. -/
theorem while_step_keeps_arrays (S : BDF) (env : BdfUtilEnv)
    (jacobian_fn : ℚ → ℚ → ℚ) (sF : ℕ) :
    ∀ (fuel : ℕ) (s : StepLoopState),
      (while_loop step_cond (step S env jacobian_fn sF) fuel s).state_vec = s.state_vec ∧
      (while_loop step_cond (step S env jacobian_fn sF) fuel s).times = s.times := by
  intro fuel
  induction fuel with
  | zero => intro s; exact ⟨rfl, rfl⟩
  | succ n ih =>
      intro s
      by_cases h : step_cond s = true
      · have hs := ih (step S env jacobian_fn sF s)
        simpa [while_loop, h] using hs
      · simp [while_loop, h]

/-- One `advance_to_solution_time` call preserves the output-array
invariant: array lengths, zeroes from slot `n` on, and requested times in
the filled slots — and it fills slot `n` with the requested time no matter
how the inner loop exited. -/
theorem advance_preserves_slots (S : BDF) (env : BdfUtilEnv)
    (jacobian_fn : ℚ → ℚ → ℚ) (sol : List ℚ) (sF iF : ℕ) (a : AdvanceState)
    (hc : advance_cond sol.length a = true)
    (hP : a.times.length = sol.length ∧ a.state_vec.length = sol.length ∧
      a.n ≤ sol.length ∧
      (∀ k, a.n ≤ k → a.times.getD k 0 = 0 ∧ a.state_vec.getD k 0 = 0) ∧
      (∀ i, i < a.n → a.times.getD i 0 = sol.getD i 0)) :
    (advance_to_solution_time S env jacobian_fn sol sF iF a).times.length = sol.length ∧
    (advance_to_solution_time S env jacobian_fn sol sF iF a).state_vec.length = sol.length ∧
    (advance_to_solution_time S env jacobian_fn sol sF iF a).n ≤ sol.length ∧
    (∀ k, (advance_to_solution_time S env jacobian_fn sol sF iF a).n ≤ k →
      (advance_to_solution_time S env jacobian_fn sol sF iF a).times.getD k 0 = 0 ∧
      (advance_to_solution_time S env jacobian_fn sol sF iF a).state_vec.getD k 0 = 0) ∧
    (∀ i, i < (advance_to_solution_time S env jacobian_fn sol sF iF a).n →
      (advance_to_solution_time S env jacobian_fn sol sF iF a).times.getD i 0 =
        sol.getD i 0) := by
  obtain ⟨hlt, hls, hnN, hzero, hfill⟩ := hP
  have hn : a.n < sol.length := by
    have hcc := hc
    simp [advance_cond] at hcc
    exact hcc.1
  obtain ⟨hsv, hts⟩ := while_step_keeps_arrays S env jacobian_fn sF iF
    { next_time := sol.getD a.n 0, diagnostics := a.diagnostics, iterand := a.iterand,
      solver_internal_state := a.solver_internal_state, state_vec := a.state_vec,
      times := a.times }
  have e1 : (advance_to_solution_time S env jacobian_fn sol sF iF a).times =
      (while_loop step_cond (step S env jacobian_fn sF) iF
        { next_time := sol.getD a.n 0, diagnostics := a.diagnostics, iterand := a.iterand,
          solver_internal_state := a.solver_internal_state, state_vec := a.state_vec,
          times := a.times }).times.set a.n (sol.getD a.n 0) := rfl
  rw [hts] at e1
  have e2 : (advance_to_solution_time S env jacobian_fn sol sF iF a).state_vec =
      (while_loop step_cond (step S env jacobian_fn sF) iF
        { next_time := sol.getD a.n 0, diagnostics := a.diagnostics, iterand := a.iterand,
          solver_internal_state := a.solver_internal_state, state_vec := a.state_vec,
          times := a.times }).state_vec.set a.n
        ((while_loop step_cond (step S env jacobian_fn sF) iF
          { next_time := sol.getD a.n 0, diagnostics := a.diagnostics, iterand := a.iterand,
            solver_internal_state := a.solver_internal_state, state_vec := a.state_vec,
            times := a.times }).solver_internal_state.backward_differences.getD 0 0) := rfl
  rw [hsv] at e2
  have e3 : (advance_to_solution_time S env jacobian_fn sol sF iF a).n = a.n + 1 := rfl
  refine ⟨?_, ?_, ?_, ?_, ?_⟩
  · rw [e1, List.length_set]; exact hlt
  · rw [e2, List.length_set]; exact hls
  · rw [e3]; exact hn
  · intro k hk
    rw [e3] at hk
    have hkn : a.n ≠ k := by omega
    rw [e1, e2, getD_set_ne _ _ _ _ hkn, getD_set_ne _ _ _ _ hkn]
    exact hzero k (by omega)
  · intro i hi
    rw [e3] at hi
    rw [e1]
    by_cases hin : i = a.n
    · subst hin
      rw [getD_set_eq _ _ _ (by rw [hlt]; exact hn)]
    · rw [getD_set_ne _ _ _ _ (fun e => hin e.symm)]
      exact hfill i (by omega)

/-- Claim C4 (amended): whatever stops the outer loop (including a fatal
`status = -1`), every output slot with index at or beyond the final slot
counter still holds its zero initialization, every filled slot `i` holds
`times[i] = solutionTimes[i]`, and the slot counter never exceeds the
number of requested times. The slot being processed when a fatal status
arrives is still filled with its requested time (shown by
`advance_preserves_slots`, whose slot write is unconditional), even though
the solver may not have reached that time. -/
theorem solve_loop_output_slots (S : BDF) (env : BdfUtilEnv)
    (jacobian_fn : ℚ → ℚ → ℚ) (t0 : ℚ) (sis0 : _BDFSolverInternalState)
    (sol : List ℚ) (oF iF sF : ℕ) :
    (∀ k, (solve_loop S env jacobian_fn t0 sis0 sol oF iF sF).n ≤ k →
      (solve_loop S env jacobian_fn t0 sis0 sol oF iF sF).times.getD k 0 = 0 ∧
      (solve_loop S env jacobian_fn t0 sis0 sol oF iF sF).state_vec.getD k 0 = 0) ∧
    (∀ i, i < (solve_loop S env jacobian_fn t0 sis0 sol oF iF sF).n →
      (solve_loop S env jacobian_fn t0 sis0 sol oF iF sF).times.getD i 0 =
        sol.getD i 0) ∧
    (solve_loop S env jacobian_fn t0 sis0 sol oF iF sF).n ≤ sol.length := by
  have hw := while_loop_inv (advance_cond sol.length)
    (advance_to_solution_time S env jacobian_fn sol sF iF)
    (fun a : AdvanceState =>
      a.times.length = sol.length ∧ a.state_vec.length = sol.length ∧
      a.n ≤ sol.length ∧
      (∀ k, a.n ≤ k → a.times.getD k 0 = 0 ∧ a.state_vec.getD k 0 = 0) ∧
      (∀ i, i < a.n → a.times.getD i 0 = sol.getD i 0))
    (fun a hc hP => advance_preserves_slots S env jacobian_fn sol sF iF a hc hP) oF
    { n := 0, diagnostics := init_diagnostics, iterand := init_iterand sis0 t0,
      solver_internal_state := sis0,
      state_vec := List.replicate sol.length 0,
      times := List.replicate sol.length 0 }
    ⟨by simp, by simp, Nat.zero_le _,
      fun k _ => ⟨getD_replicate _ _, getD_replicate _ _⟩,
      fun i hi => absurd hi (Nat.not_lt_zero i)⟩
  exact ⟨hw.2.2.2.1, hw.2.2.2.2, hw.2.2.1⟩

/-- Counterexample to claim C4 as stated: with a zero step budget on
requested times `[1, 2]` from time 0, the run ends with `status = -1` and
the solver still at time 0 — no output time was ever reached — yet slot 0
of the times array is filled with the requested time 1 instead of its zero
initialization, so slot 0 is neither a valid filled slot for a reached
time nor an untouched zero slot. Slot 1 stays zero. -/
theorem solve_loop_budget_counterexample :
    (solve_loop SBudget0 envFail jac0 0 sis1 [1, 2] 2 2 2).diagnostics.status = -1 ∧
    (solve_loop SBudget0 envFail jac0 0 sis1 [1, 2] 2 2 2).n = 1 ∧
    (solve_loop SBudget0 envFail jac0 0 sis1 [1, 2] 2 2 2).iterand.time = 0 ∧
    (solve_loop SBudget0 envFail jac0 0 sis1 [1, 2] 2 2 2).times.getD 0 0 = 1 ∧
    (solve_loop SBudget0 envFail jac0 0 sis1 [1, 2] 2 2 2).times.getD 1 0 = 0 ∧
    (solve_loop SBudget0 envFail jac0 0 sis1 [1, 2] 2 2 2).state_vec.getD 1 0 = 0 := by
  decide

/-- Witness for the amended C4 theorem on the concrete fatal run. -/
theorem solve_loop_output_slots_witness :
    ((solve_loop SBudget0 envFail jac0 0 sis1 [1, 2] 2 2 2).n ≤ 1 ∧
      0 < (solve_loop SBudget0 envFail jac0 0 sis1 [1, 2] 2 2 2).n) ∧
    ((solve_loop SBudget0 envFail jac0 0 sis1 [1, 2] 2 2 2).times.getD 1 0 = 0 ∧
      (solve_loop SBudget0 envFail jac0 0 sis1 [1, 2] 2 2 2).state_vec.getD 1 0 = 0) ∧
    (solve_loop SBudget0 envFail jac0 0 sis1 [1, 2] 2 2 2).times.getD 0 0 =
      [(1 : ℚ), 2].getD 0 0 :=
  ⟨⟨by decide, by decide⟩,
    (solve_loop_output_slots SBudget0 envFail jac0 0 sis1 [1, 2] 2 2 2).1 1 (by decide),
    (solve_loop_output_slots SBudget0 envFail jac0 0 sis1 [1, 2] 2 2 2).2.1 0 (by decide)⟩
